import Mathlib

/-!
Verification of the memorai codebase-scan core: a shallow embedding of the
scanner (`analyze.ts`), the partitioner (`partition.ts`) and the checkpoint
manager (`checkpoint.ts`), together with theorems settling the spec claims
about coverage, partition bounds, glob matching, fingerprints, checkpoint
validity, phase ordering and frame conditions.

Conventions of the embedding:
- JavaScript numbers are modelled as `Nat` (token counts, sizes, indices are
  non-negative integers in every reachable state); priority arithmetic, which
  can go below zero before clamping, uses `Int`.
- JavaScript arrays are `List`, insertion-ordered `Map`/`Set`/object literals
  are association lists with first-insertion ordering, matching JS iteration
  order.
- `Array.prototype.sort` (stable since ES2019) is modelled by a stable
  insertion sort; any two stable sorts under the same comparator preorder
  produce the same list.
- Filesystem access is modelled by an explicit `FSNode` tree whose
  constructors also represent `readdirSync`/`statSync`/`readFileSync`
  failures; `Date.now()` / ISO timestamps are explicit parameters.
-/

namespace Memorai

/-! ## Generic helpers (JS array / map / string primitives) -/

/-- Stable insertion of `x` into a list already sorted by `le`:
`x` is placed before the first element `y` with `le x y`.  Together with
`stableSort` this models JavaScript's stable `Array.prototype.sort`. -/
def insertLe (le : α → α → Bool) (x : α) : List α → List α
  | [] => [x]
  | y :: ys => if le x y then x :: y :: ys else y :: insertLe le x ys

/-- Stable sort by the boolean preorder `le` (model of `Array.prototype.sort`
with a comparator `c` where `le a b ↔ c(a,b) ≤ 0`). -/
def stableSort (le : α → α → Bool) : List α → List α
  | [] => []
  | x :: xs => insertLe le x (stableSort le xs)

/-- Model of `{ ...obj, [k]: v }` on an insertion-ordered object: overwrite the
existing binding in place, otherwise append a new one. -/
def recordSet (l : List (String × α)) (k : String) (v : α) : List (String × α) :=
  if l.any (fun p => p.1 == k) then
    l.map (fun p => if p.1 == k then (k, v) else p)
  else
    l ++ [(k, v)]

/-- Model of `map.get(k).push(f)` / `map.set(k,[f])` on an insertion-ordered
`Map<string, T[]>`. -/
def groupAdd (l : List (String × List α)) (k : String) (f : α) :
    List (String × List α) :=
  match l with
  | [] => [(k, [f])]
  | (k', fs) :: rest =>
    if k' == k then (k', fs ++ [f]) :: rest else (k', fs) :: groupAdd rest k f

/-- Model of `set.add(x)` on an insertion-ordered `Set<string>`. -/
def setAdd (l : List String) (x : String) : List String :=
  if l.contains x then l else l ++ [x]

/-- Model of `new Set(xs)` on an insertion-ordered `Set<string>`. -/
def setOfList (xs : List String) : List String :=
  xs.foldl setAdd []

/-- Bump an insertion-ordered counter object (`counts[k] = (counts[k] ?? 0) + v`). -/
def bumpCount (l : List (String × Nat)) (k : String) (v : Nat) :
    List (String × Nat) :=
  match l with
  | [] => [(k, v)]
  | (k', n) :: rest =>
    if k' == k then (k', n + v) :: rest else (k', n) :: bumpCount rest k v

/-- Whether `sub` occurs as a contiguous run inside `s` (JS `String.includes`). -/
def listContainsSeq [BEq α] (s sub : List α) : Bool :=
  match s with
  | [] => sub.isEmpty
  | _ :: xs => sub.isPrefixOf s || listContainsSeq xs sub

/-- JS `s.includes(sub)` on strings. -/
def strContains (s sub : String) : Bool :=
  listContainsSeq s.data sub.data

/-- JS `s.startsWith(pre)` (kernel-computable character-wise model). -/
def strStartsWith (s pre : String) : Bool :=
  pre.data.isPrefixOf s.data

/-- JS `s.toLowerCase()` restricted to the ASCII case mapping of `Char.toLower`. -/
def strToLower (s : String) : String :=
  ⟨s.data.map Char.toLower⟩

/-- Split a character list on a single-character separator (JS
`s.split(c)` — the scanner only ever splits on `'/'` and `'\n'` and `'.'`). -/
def splitOnChar (c : Char) : List Char → List (List Char)
  | [] => [[]]
  | x :: xs =>
    let r := splitOnChar c xs
    if x == c then [] :: r
    else
      match r with
      | [] => [[x]]
      | g :: gs => (x :: g) :: gs

/-- JS `s.split(c)` producing strings. -/
def strSplitOnChar (c : Char) (s : String) : List String :=
  (splitOnChar c s.data).map fun cs => ⟨cs⟩

/-- Join strings with a single-character separator (inverse of `strSplitOnChar`,
models `Array.prototype.join` / `path` recomposition). -/
def joinWithChar (c : Char) : List String → String
  | [] => ""
  | [s] => s
  | s :: rest => s ++ ⟨[c]⟩ ++ joinWithChar c rest

/-- Lexicographic `≤` on code points; models `a.localeCompare(b) ≤ 0` for the
plain ASCII path names appearing in this development. -/
def lexLeChars : List Char → List Char → Bool
  | [], _ => true
  | _ :: _, [] => false
  | x :: xs, y :: ys =>
    if x == y then lexLeChars xs ys else Nat.blt x.toNat y.toNat

/-- String version of `lexLeChars`. -/
def strLexLe (a b : String) : Bool :=
  lexLeChars a.data b.data

/-! ## Path helpers (`node:path`, POSIX, for the relative slash-free paths the
scanner produces) -/

/-- `node:path` `dirname` for relative POSIX paths without trailing slash:
everything before the last `/`, or `"."` when there is none. -/
def dirname (p : String) : String :=
  let parts := strSplitOnChar '/' p
  if parts.length ≤ 1 then "." else joinWithChar '/' parts.dropLast

/-- `node:path` `basename`: the component after the last `/`. -/
def basename (p : String) : String :=
  (strSplitOnChar '/' p).getLastD p

/-- `node:path` `extname`: the suffix of the basename from its last dot
(empty for dotless names and for leading-dot names such as `.gitignore`). -/
def extname (p : String) : String :=
  let b := basename p
  let parts := strSplitOnChar '.' b
  if parts.length ≤ 1 then ""
  else if (parts.headD "" == "") && parts.length == 2 then ""
  else "." ++ parts.getLastD ""

/-- Relative path of entry `name` inside directory `rel`
(`relative(projectDir, join(dirPath, name))` in the scanner). -/
def joinRel (rel name : String) : String :=
  if rel == "." then name else rel ++ "/" ++ name

/-- JS `s.replace(pat, '')` with a *string* pattern: removes only the first
occurrence of `pat`. -/
def removeFirstOccur (s pat : String) : String :=
  ⟨go s.data pat.data⟩
where
  go : List Char → List Char → List Char
    | [], _ => []
    | x :: xs, p => if p.isPrefixOf (x :: xs) then (x :: xs).drop p.length
                    else x :: go xs p

/-! ## Glob matching (`patternToRegex` / `isExcluded` / `isIncluded`)

`patternToRegex` escapes regex metacharacters and rewrites `**` to `.*`,
`*` to `[^/]*`, `?` to `.`, and, for patterns starting with `**/`, makes the
leading `.*/` optional (`(?:.*/)?`), producing an anchored `^...$` regex.
We model the *language* of that regex directly: the pattern is tokenized into
atoms with exactly those semantics and matched against the whole path. -/

/-- One atom of the regex produced by `patternToRegex`. -/
inductive GlobAtom where
  | lit (c : Char)
  | star
  | globstar
  | qmark
deriving DecidableEq, Repr

/-- Tokenization of a glob pattern: `**` (greedy, replaced first in the
source), then `*`, then `?`; every other character is a literal (the source
escapes regex metacharacters, so they all match themselves). -/
def globTokens : List Char → List GlobAtom
  | [] => []
  | '*' :: '*' :: rest => .globstar :: globTokens rest
  | '*' :: rest => .star :: globTokens rest
  | '?' :: rest => .qmark :: globTokens rest
  | c :: rest => .lit c :: globTokens rest

/-- The suffixes of `s` obtained by consuming a (possibly empty) run of
non-`/` characters from the front: the language of `[^/]*` before a
continuation. -/
def nonSlashSuffixes : List Char → List (List Char)
  | [] => [[]]
  | x :: xs => (x :: xs) :: (if x == '/' then [] else nonSlashSuffixes xs)

/-- Anchored matching of the atom list against a path: `lit c` matches `c`,
`qmark` any one character (`.`), `star` any run without `/` (`[^/]*`),
`globstar` any run (`.*`). -/
def globMatch : List GlobAtom → List Char → Bool
  | [], s => s.isEmpty
  | .lit c :: as, s =>
    match s with
    | [] => false
    | x :: xs => c == x && globMatch as xs
  | .qmark :: as, s =>
    match s with
    | [] => false
    | _ :: xs => globMatch as xs
  | .star :: as, s => (nonSlashSuffixes s).any fun t => globMatch as t
  | .globstar :: as, s => s.tails.any fun t => globMatch as t

/-- Model of `patternToRegex(pattern).test(path)`: for a pattern with a
leading `**/` the produced regex is `^(?:.*/)?R$` (match with or without a
directory prefix), otherwise the plain anchored translation. -/
def patternToRegexTest (pattern path : String) : Bool :=
  let atoms := globTokens pattern.data
  if strStartsWith pattern "**/" then
    globMatch (atoms.drop 2) path.data || globMatch atoms path.data
  else
    globMatch atoms path.data

/-- Whether a path matches any exclude pattern (`isExcluded` in the scanner,
which returns on the first matching pattern). -/
def isExcluded (relativePath : String) (excludePatterns : List String) : Bool :=
  excludePatterns.any fun pattern => patternToRegexTest pattern relativePath

/-- Whether a path matches any include pattern (`isIncluded` in the scanner). -/
def isIncluded (relativePath : String) (includePatterns : List String) : Bool :=
  includePatterns.any fun pattern => patternToRegexTest pattern relativePath

/-! ## Data model (`types.ts`) -/

/-- Token estimation divisor (`CHARS_PER_TOKEN = 4`). -/
def CHARS_PER_TOKEN : Nat := 4

/-- Single-file token ceiling (`MAX_FILE_TOKENS = 100000`). -/
def MAX_FILE_TOKENS : Nat := 100000

/-- `DEFAULT_INCLUDE_PATTERNS` from `types.ts`. -/
def DEFAULT_INCLUDE_PATTERNS : List String :=
  ["**/*.ts", "**/*.tsx", "**/*.js", "**/*.jsx", "**/*.py", "**/*.go",
   "**/*.rs", "**/*.java", "**/*.kt", "**/*.swift", "**/*.c", "**/*.cpp",
   "**/*.h", "**/*.hpp", "**/*.cs", "**/*.rb", "**/*.php", "**/*.vue",
   "**/*.svelte"]

/-- `DEFAULT_EXCLUDE_PATTERNS` from `types.ts`. -/
def DEFAULT_EXCLUDE_PATTERNS : List String :=
  ["**/node_modules/**", "**/vendor/**", "**/.git/**", "**/dist/**",
   "**/build/**", "**/.next/**", "**/coverage/**", "**/__pycache__/**",
   "**/.venv/**", "**/venv/**", "**/.memorai/**", "**/target/**",
   "**/bin/**", "**/obj/**", "**/*.min.js", "**/*.min.css",
   "**/*.bundle.js", "**/*.generated.*", "**/package-lock.json",
   "**/yarn.lock", "**/pnpm-lock.yaml", "**/Cargo.lock", "**/go.sum"]

/-- `FileInfo`: one scanned source file. -/
structure FileInfo where
  path : String
  relativePath : String
  size : Nat
  tokens : Nat
  language : String
  lines : Nat
deriving DecidableEq, Repr

/-- Reason of a `SkippedFile` (`'too_large' | 'binary' | 'excluded'`). -/
inductive SkipReason where
  | tooLarge
  | binary
  | excluded
deriving DecidableEq, Repr

/-- `SkippedFile`: audit record for a file the scanner did not ingest. -/
structure SkippedFile where
  path : String
  reason : SkipReason
  size : Option Nat
  tokens : Option Nat
deriving DecidableEq, Repr

/-- `DirectoryNode`: the token-weighted structure tree.  (A Lean `structure`
cannot be recursive, hence the single-constructor inductive with projections.) -/
inductive DirectoryNode where
  | mk (path : String) (files : List FileInfo) (children : List DirectoryNode)
       (totalTokens : Nat) (primaryLanguage : String) (fileCount : Nat)

def DirectoryNode.path : DirectoryNode → String
  | .mk p _ _ _ _ _ => p

def DirectoryNode.files : DirectoryNode → List FileInfo
  | .mk _ fs _ _ _ _ => fs

def DirectoryNode.children : DirectoryNode → List DirectoryNode
  | .mk _ _ cs _ _ _ => cs

def DirectoryNode.totalTokens : DirectoryNode → Nat
  | .mk _ _ _ t _ _ => t

def DirectoryNode.primaryLanguage : DirectoryNode → String
  | .mk _ _ _ _ l _ => l

def DirectoryNode.fileCount : DirectoryNode → Nat
  | .mk _ _ _ _ _ c => c

/-- `PartitionSpec`: one emitted partition. -/
structure PartitionSpec where
  id : String
  description : String
  directories : List String
  files : List String
  estimatedTokens : Nat
  relatedPartitions : List String
  priority : Nat
deriving DecidableEq, Repr

/-- `PartitionMode`: `'auto' | 'directory' | 'flat'`. -/
inductive PartitionMode where
  | auto
  | directory
  | flat
deriving DecidableEq, Repr

/-- `PartitionConfig` (the caller-merged `{...DEFAULT_PARTITION_CONFIG, ...config}`
is modelled by always passing a complete configuration). -/
structure PartitionConfig where
  mode : PartitionMode
  targetTokens : Nat
  minTokens : Nat
  maxTokens : Nat
  maxPartitions : Nat
deriving DecidableEq, Repr

/-- `DEFAULT_PARTITION_CONFIG` from `types.ts`. -/
def DEFAULT_PARTITION_CONFIG : PartitionConfig :=
  { mode := .auto, targetTokens := 80000, minTokens := 10000,
    maxTokens := 100000, maxPartitions := 50 }

/-- `CodebaseManifest`.  The source field `structure` is named `structureTree`
here (`structure` is a Lean keyword).  The prompt-display-only fields
`languages`, `globalContext` and `configFiles` are not read by any function
verified below (partitioner and checkpoint manager read only the fields
modelled here) and are omitted from the embedding. -/
structure CodebaseManifest where
  projectDir : String
  projectName : String
  totalFiles : Nat
  totalTokens : Nat
  structureTree : DirectoryNode
  entryPoints : List String
  partitions : List PartitionSpec
  skippedFiles : List SkippedFile
  hash : String
  createdAt : String

/-! ## Scanner (`analyze.ts`) -/

/-- `estimateTokens`: `Math.ceil(sizeInBytes / CHARS_PER_TOKEN)`. -/
def estimateTokens (sizeInBytes : Nat) : Nat :=
  (sizeInBytes + CHARS_PER_TOKEN - 1) / CHARS_PER_TOKEN

/-- `countLines`: `content.split('\n').length`. -/
def countLines (content : String) : Nat :=
  (splitOnChar '\n' content.data).length

/-- `EXT_TO_LANGUAGE` lookup table. -/
def EXT_TO_LANGUAGE : List (String × String) :=
  [(".ts", "TypeScript"), (".tsx", "TypeScript"), (".js", "JavaScript"),
   (".jsx", "JavaScript"), (".mjs", "JavaScript"), (".cjs", "JavaScript"),
   (".py", "Python"), (".go", "Go"), (".rs", "Rust"), (".java", "Java"),
   (".kt", "Kotlin"), (".kts", "Kotlin"), (".swift", "Swift"), (".c", "C"),
   (".h", "C"), (".cpp", "C++"), (".hpp", "C++"), (".cc", "C++"),
   (".cs", "C#"), (".rb", "Ruby"), (".php", "PHP"), (".vue", "Vue"),
   (".svelte", "Svelte"), (".scala", "Scala"), (".ex", "Elixir"),
   (".exs", "Elixir"), (".erl", "Erlang"), (".clj", "Clojure"),
   (".hs", "Haskell"), (".ml", "OCaml"), (".fs", "F#"), (".r", "R"),
   (".jl", "Julia"), (".dart", "Dart"), (".lua", "Lua"), (".sh", "Shell"),
   (".bash", "Shell"), (".zsh", "Shell"), (".sql", "SQL"),
   (".graphql", "GraphQL"), (".gql", "GraphQL")]

/-- `detectLanguage`: extension lookup, `'Unknown'` by default. -/
def detectLanguage (filePath : String) : String :=
  (List.lookup (strToLower (extname filePath)) EXT_TO_LANGUAGE).getD "Unknown"

/-- The fixed binary-extension set of `isBinaryFile`. -/
def binaryExtensions : List String :=
  [".png", ".jpg", ".jpeg", ".gif", ".ico", ".svg", ".webp",
   ".pdf", ".doc", ".docx", ".xls", ".xlsx", ".ppt", ".pptx",
   ".zip", ".tar", ".gz", ".rar", ".7z",
   ".exe", ".dll", ".so", ".dylib",
   ".wasm", ".woff", ".woff2", ".ttf", ".eot",
   ".mp3", ".mp4", ".avi", ".mov", ".wav",
   ".db", ".sqlite", ".sqlite3"]

/-- `isBinaryFile`: extension membership in the fixed set. -/
def isBinaryFile (filePath : String) : Bool :=
  binaryExtensions.contains (strToLower (extname filePath))

/-- Filesystem model for the scanner.  `file` carries byte size and the
result of `readFileSync` (`none` = read failure, the catch-with-fallback
branch); `dir` lists `readdirSync` entries in order; `unreadableDir` is a
directory whose `readdirSync` throws; `statError` is an entry whose
`statSync` throws. -/
inductive FSNode where
  | file (size : Nat) (content : Option String)
  | dir (entries : List (String × FSNode))
  | unreadableDir
  | statError

/-- Accumulator for the entry loop of `scanDirectory` (the mutable local
variables of the TS function plus the shared `skippedFiles` array). -/
structure ScanAcc where
  files : List FileInfo
  children : List DirectoryNode
  totalTokens : Nat
  fileCount : Nat
  langCounts : List (String × Nat)
  skips : List SkippedFile

mutual

/-- `scanDirectory`: walks one directory of the filesystem model, returning
the built `DirectoryNode` together with the `SkippedFile`s recorded inside it
(the TS version pushes them to a shared array).  `relPath` is
`relative(projectDir, dirPath) || '.'`; any `readdirSync` failure (including
an unreadable or non-directory root) is caught and yields the untouched empty
node. -/
def scanDirectory (fs : FSNode) (projectDir relPath : String)
    (includePatterns excludePatterns : List String)
    (maxDepth currentDepth : Nat) : DirectoryNode × List SkippedFile :=
  let node0 : DirectoryNode := .mk relPath [] [] 0 "Unknown" 0
  if maxDepth ≤ currentDepth then (node0, [])
  else
    match fs with
    | .dir entries =>
      let acc := scanEntries entries projectDir relPath includePatterns
        excludePatterns maxDepth currentDepth
        ⟨[], [], 0, 0, [], []⟩
      let primary :=
        if acc.langCounts.isEmpty then "Unknown"
        else ((stableSort (fun a b => Nat.ble b.2 a.2) acc.langCounts).headD
          ("Unknown", 0)).1
      (.mk relPath acc.files acc.children acc.totalTokens primary acc.fileCount,
        acc.skips)
    | _ => (node0, [])

/-- The `for (const entry of entries)` loop of `scanDirectory`. -/
def scanEntries (entries : List (String × FSNode)) (projectDir relPath : String)
    (includePatterns excludePatterns : List String)
    (maxDepth currentDepth : Nat) (acc : ScanAcc) : ScanAcc :=
  match entries with
  | [] => acc
  | (name, child) :: rest =>
    let rel := joinRel relPath name
    let acc :=
      if strStartsWith name "." then acc
      else
        match child with
        | .statError => acc
        | .file size content =>
          if isExcluded rel excludePatterns then acc
          else if !(isIncluded rel includePatterns) then acc
          else if isBinaryFile rel then
            { acc with skips := acc.skips ++ [⟨rel, .binary, none, none⟩] }
          else
            let tokens := estimateTokens size
            if MAX_FILE_TOKENS < tokens then
              { acc with
                skips := acc.skips ++ [⟨rel, .tooLarge, some size, some tokens⟩] }
            else
              let language := detectLanguage rel
              let lines :=
                match content with
                | some c => countLines c
                | none => (size + 39) / 40
              let fi : FileInfo :=
                ⟨projectDir ++ "/" ++ rel, rel, size, tokens, language, lines⟩
              { acc with
                files := acc.files ++ [fi],
                totalTokens := acc.totalTokens + tokens,
                fileCount := acc.fileCount + 1,
                langCounts :=
                  if language == "Unknown" then acc.langCounts
                  else bumpCount acc.langCounts language tokens }
        | _ =>
          if isExcluded (rel ++ "/") excludePatterns then acc
          else
            let res := scanDirectory child projectDir rel includePatterns
              excludePatterns maxDepth (currentDepth + 1)
            let acc := { acc with skips := acc.skips ++ res.2 }
            if 0 < res.1.fileCount || !res.1.children.isEmpty then
              { acc with
                children := acc.children ++ [res.1],
                totalTokens := acc.totalTokens + res.1.totalTokens,
                fileCount := acc.fileCount + res.1.fileCount,
                langCounts :=
                  if res.1.primaryLanguage == "Unknown" then acc.langCounts
                  else bumpCount acc.langCounts res.1.primaryLanguage
                    res.1.totalTokens }
            else acc
    scanEntries rest projectDir relPath includePatterns excludePatterns
      maxDepth currentDepth acc

end

mutual

/-- `getAllFiles`: pre-order file collection over the structure tree. -/
def getAllFiles (root : DirectoryNode) : List FileInfo :=
  match root with
  | .mk _ files children _ _ _ => files ++ getAllFilesList children

/-- Child traversal of `getAllFiles`. -/
def getAllFilesList (nodes : List DirectoryNode) : List FileInfo :=
  match nodes with
  | [] => []
  | n :: ns => getAllFiles n ++ getAllFilesList ns

end

/-- The fixed `entryPatterns` list of `findEntryPoints`. -/
def entryPatterns : List String :=
  ["main.ts", "main.js", "main.py", "main.go", "main.rs",
   "index.ts", "index.js", "index.py",
   "app.ts", "app.js", "app.py",
   "server.ts", "server.js", "server.py",
   "mod.ts", "mod.rs",
   "lib.rs"]

mutual

/-- The traversal of `findEntryPoints` (before the `slice(0, 10)`). -/
def findEntryPointsAux (node : DirectoryNode) : List String :=
  match node with
  | .mk _ files children _ _ _ =>
    (files.filter (fun f => entryPatterns.contains (basename f.relativePath))).map
      (fun f => f.relativePath)
    ++ findEntryPointsAuxList children

/-- Child traversal of `findEntryPoints`. -/
def findEntryPointsAuxList (nodes : List DirectoryNode) : List String :=
  match nodes with
  | [] => []
  | n :: ns => findEntryPointsAux n ++ findEntryPointsAuxList ns

end

/-- `findEntryPoints`: conventional entry-point filenames, capped at 10. -/
def findEntryPoints (root : DirectoryNode) : List String :=
  (findEntryPointsAux root).take 10

/-- The string hashed by `generateManifestHash`:
`` `${projectDir}:${totalFiles}:${totalTokens}:${Date.now()}` ``. -/
def manifestHashData (projectDir : String) (totalFiles totalTokens now : Nat) :
    String :=
  projectDir ++ ":" ++ toString totalFiles ++ ":" ++ toString totalTokens
    ++ ":" ++ toString now

/-- `generateManifestHash`.  `hashHex` abstracts the external crypto
primitive `createHash('sha256').update(data).digest('hex').slice(0, 16)`;
the fingerprint is that digest of `manifestHashData`, which depends on the
current wall-clock time `now`. -/
def generateManifestHash (hashHex : String → String) (projectDir : String)
    (totalFiles totalTokens now : Nat) : String :=
  hashHex (manifestHashData projectDir totalFiles totalTokens now)

/-- `analyzeCodebase` over the filesystem model, restricted to the manifest
fields consumed by the partitioner and checkpoint manager (see
`CodebaseManifest`).  `projectDir` plays the role of `resolve(projectDir)`;
`projectName` stands for the `getProjectName` metadata lookup (not observed
by any verified function); `now`/`nowIso` are `Date.now()` and
`new Date().toISOString()`.  Note the TS function returns a plain manifest —
there is no error channel, so an unreadable root yields the empty scan
result rather than a failure. -/
def analyzeCodebase (hashHex : String → String) (fs : FSNode)
    (projectDir projectName : String)
    (includePatterns excludePatterns : List String)
    (now : Nat) (nowIso : String) : CodebaseManifest :=
  let res := scanDirectory fs projectDir "." includePatterns excludePatterns 10 0
  { projectDir := projectDir
    projectName := projectName
    totalFiles := res.1.fileCount
    totalTokens := res.1.totalTokens
    structureTree := res.1
    entryPoints := findEntryPoints res.1
    partitions := []
    skippedFiles := res.2
    hash := generateManifestHash hashHex projectDir res.1.fileCount
      res.1.totalTokens now
    createdAt := nowIso }

/-! ## Partitioner (`partition.ts`) -/

/-- `` `partition-${String(num).padStart(2, '0')}` ``. -/
def partitionId (num : Nat) : String :=
  "partition-" ++ (if num < 10 then "0" ++ toString num else toString num)

/-- `PartitionBuilder`: a partition under construction (its `directories` and
`relatedPartitions` sets are insertion-ordered lists without duplicates). -/
structure PartitionBuilder where
  id : String
  description : String
  directories : List String
  files : List FileInfo
  tokens : Nat
  relatedPartitions : List String
  priority : Nat
deriving DecidableEq, Repr

/-- `ModuleInfo`: an identified module boundary. -/
structure ModuleInfo where
  path : String
  name : String
  files : List FileInfo
  tokens : Nat
  depth : Nat
deriving DecidableEq, Repr

/-- `createSinglePartition`: the whole codebase as one partition. -/
def createSinglePartition (manifest : CodebaseManifest) : PartitionSpec :=
  { id := "partition-01"
    description := "Complete codebase: " ++ manifest.projectName
    directories := ["."]
    files := (getAllFiles manifest.structureTree).map (·.relativePath)
    estimatedTokens := manifest.totalTokens
    relatedPartitions := []
    priority := 10 }

/-- `generateModuleName`: last two path components, or the single component. -/
def generateModuleName (node : DirectoryNode) : String :=
  let parts := strSplitOnChar '/' node.path
  if 2 ≤ parts.length then
    parts.getD (parts.length - 2) "" ++ "/" ++ parts.getD (parts.length - 1) ""
  else
    parts.getLastD node.path

mutual

/-- `collectAllFiles`: pre-order file collection (the partitioner's own copy
of the traversal). -/
def collectAllFiles (node : DirectoryNode) : List FileInfo :=
  match node with
  | .mk _ files children _ _ _ => files ++ collectAllFilesList children

/-- Child traversal of `collectAllFiles`. -/
def collectAllFilesList (nodes : List DirectoryNode) : List FileInfo :=
  match nodes with
  | [] => []
  | n :: ns => collectAllFiles n ++ collectAllFilesList ns

end

mutual

/-- The `traverse` of `identifyModules`: emit a module and stop descending at
a boundary (directory at depth ≥ 1 with direct files or a >3-file child, and
>5000 tokens or >5 files); at depth 0 the root's loose files form an implicit
`root` module, appended after the children. -/
def identifyTraverse (node : DirectoryNode) (depth : Nat) : List ModuleInfo :=
  match node with
  | .mk path files children totalTokens primaryLanguage fileCount =>
    let node' : DirectoryNode := .mk path files children totalTokens
      primaryLanguage fileCount
    let hasSignificantContent :=
      !files.isEmpty || children.any (fun c => 3 < c.fileCount)
    let isModuleBoundary :=
      hasSignificantContent && Nat.ble 1 depth
        && (Nat.blt 5000 totalTokens || Nat.blt 5 fileCount)
    if isModuleBoundary then
      [{ path := path, name := generateModuleName node',
         files := collectAllFiles node', tokens := totalTokens, depth := depth }]
    else
      identifyTraverseList children (depth + 1)
      ++ (if depth == 0 && !files.isEmpty then
            [{ path := ".", name := "root", files := files,
               tokens := files.foldl (fun sum f => sum + f.tokens) 0,
               depth := 0 }]
          else [])

/-- Child traversal of `identifyModules`. -/
def identifyTraverseList (nodes : List DirectoryNode) (depth : Nat) :
    List ModuleInfo :=
  match nodes with
  | [] => []
  | n :: ns => identifyTraverse n depth ++ identifyTraverseList ns depth

end

/-- `identifyModules`: module boundaries of the structure tree. -/
def identifyModules (root : DirectoryNode) : List ModuleInfo :=
  identifyTraverse root 0

/-- The subdirectory grouping of `splitModule`: group key is the module path
itself for direct files, otherwise the module path extended by the first
component of the file's subpath (`file.relativePath.replace(module.path+'/','')`).
Insertion-ordered, as a JS `Map`. -/
def splitModuleGroups (modulePath : String) (files : List FileInfo) :
    List (String × List FileInfo) :=
  files.foldl
    (fun bySubdir file =>
      let rel := removeFirstOccur file.relativePath (modulePath ++ "/")
      let subdir := dirname rel
      let key :=
        if subdir == "." then modulePath
        else modulePath ++ "/" ++ (strSplitOnChar '/' subdir).headD ""
      groupAdd bySubdir key file)
    []

/-- The packing loop of `splitModule`: greedily merge subdirectory groups into
the current builder while the sum stays ≤ `targetTokens`, else flush and start
a new builder from the whole group. -/
def splitModuleLoop (config : PartitionConfig) (moduleName : String) :
    List (String × List FileInfo) → Option PartitionBuilder → Nat →
    List PartitionBuilder
  | [], cur, _ =>
    match cur with
    | none => []
    | some b => [b]
  | (subdir, files) :: rest, cur, num =>
    let subdirTokens := files.foldl (fun sum f => sum + f.tokens) 0
    let fresh : PartitionBuilder :=
      { id := partitionId num
        description := moduleName ++ ": " ++ basename subdir
        directories := [subdir]
        files := files
        tokens := subdirTokens
        relatedPartitions := []
        priority := 5 }
    match cur with
    | some b =>
      if b.tokens + subdirTokens ≤ config.targetTokens then
        splitModuleLoop config moduleName rest
          (some { b with
            files := b.files ++ files
            tokens := b.tokens + subdirTokens
            directories := setAdd b.directories subdir }) num
      else
        b :: splitModuleLoop config moduleName rest (some fresh) (num + 1)
    | none => splitModuleLoop config moduleName rest (some fresh) (num + 1)

/-- `splitModule`: split an oversized module by immediate subdirectory. -/
def splitModule (module : ModuleInfo) (config : PartitionConfig)
    (startNum : Nat) : List PartitionBuilder :=
  splitModuleLoop config module.name
    (splitModuleGroups module.path module.files) none startNum

/-- `builderToSpec`. -/
def builderToSpec (b : PartitionBuilder) : PartitionSpec :=
  { id := b.id
    description := b.description
    directories := b.directories
    files := b.files.map (·.relativePath)
    estimatedTokens := b.tokens
    relatedPartitions := b.relatedPartitions
    priority := b.priority }

/-- `splitLargeDirectory`: split an oversized top-level directory. -/
def splitLargeDirectory (node : DirectoryNode) (config : PartitionConfig)
    (startNum : Nat) : List PartitionSpec :=
  let module : ModuleInfo :=
    { path := node.path, name := generateModuleName node,
      files := collectAllFiles node, tokens := node.totalTokens, depth := 1 }
  (splitModule module config startNum).map builderToSpec

/-- `directoryToPartition`. -/
def directoryToPartition (node : DirectoryNode) (num : Nat) : PartitionSpec :=
  { id := partitionId num
    description := generateModuleName node ++ " (" ++ node.primaryLanguage ++ ")"
    directories := [node.path]
    files := (collectAllFiles node).map (·.relativePath)
    estimatedTokens := node.totalTokens
    relatedPartitions := []
    priority := 5 }

/-- `filesToPartition`. -/
def filesToPartition (files : List FileInfo) (tokens num : Nat) : PartitionSpec :=
  { id := partitionId num
    description := "Files chunk " ++ toString num
    directories := setOfList (files.map (fun f => dirname f.relativePath))
    files := files.map (·.relativePath)
    estimatedTokens := tokens
    relatedPartitions := []
    priority := 5 }

/-- `moduleToBuilder`. -/
def moduleToBuilder (module : ModuleInfo) (num : Nat) : PartitionBuilder :=
  { id := partitionId num
    description := module.name
    directories := [module.path]
    files := module.files
    tokens := module.tokens
    relatedPartitions := []
    priority := 5 }

/-- `tryMergeModule`: merge an undersized module into the first builder whose
first directory has the same parent and whose combined size stays within
`targetTokens`; `none` when no builder qualifies. -/
def tryMergeModule (module : ModuleInfo) (builders : List PartitionBuilder)
    (config : PartitionConfig) : Option (List PartitionBuilder) :=
  go builders
where
  go : List PartitionBuilder → Option (List PartitionBuilder)
    | [] => none
    | b :: bs =>
      let builderParent := dirname (b.directories.headD "")
      if builderParent == dirname module.path
          && b.tokens + module.tokens ≤ config.targetTokens then
        some ({ b with
          files := b.files ++ module.files
          tokens := b.tokens + module.tokens
          directories := setAdd b.directories module.path
          description := builderParent ++ " modules" } :: bs)
      else
        (go bs).map (b :: ·)

mutual

/-- The traversal of `findOrphanFiles`: files whose relative path is covered
by no module. -/
def orphanTraverse (node : DirectoryNode) (coveredPaths : List String) :
    List FileInfo :=
  match node with
  | .mk _ files children _ _ _ =>
    files.filter (fun f => !coveredPaths.contains f.relativePath)
      ++ orphanTraverseList children coveredPaths

/-- Child traversal of `findOrphanFiles`. -/
def orphanTraverseList (nodes : List DirectoryNode) (coveredPaths : List String) :
    List FileInfo :=
  match nodes with
  | [] => []
  | n :: ns => orphanTraverse n coveredPaths ++ orphanTraverseList ns coveredPaths

end

/-- `findOrphanFiles`. -/
def findOrphanFiles (root : DirectoryNode) (modules : List ModuleInfo) :
    List FileInfo :=
  orphanTraverse root (modules.flatMap (fun m => m.files.map (·.relativePath)))

/-- The accumulation loop of `mergeSmallPartitions` over the
size-sorted list. -/
def mergeSmallLoop (config : PartitionConfig) :
    List PartitionSpec → Option PartitionSpec → List PartitionSpec
  | [], acc =>
    match acc with
    | none => []
    | some a => [a]
  | p :: rest, acc =>
    if config.minTokens ≤ p.estimatedTokens then
      (match acc with
       | none => []
       | some a => [a]) ++ p :: mergeSmallLoop config rest none
    else
      match acc with
      | none => mergeSmallLoop config rest (some p)
      | some a =>
        if a.estimatedTokens + p.estimatedTokens ≤ config.targetTokens then
          mergeSmallLoop config rest
            (some { a with
              directories := a.directories ++ p.directories
              files := a.files ++ p.files
              estimatedTokens := a.estimatedTokens + p.estimatedTokens
              description := "Merged modules" })
        else
          a :: mergeSmallLoop config rest (some p)

/-- `mergeSmallPartitions`: sort ascending by size (stable) and fold
undersized partitions together while they fit within `targetTokens`. -/
def mergeSmallPartitions (partitions : List PartitionSpec)
    (config : PartitionConfig) : List PartitionSpec :=
  mergeSmallLoop config
    (stableSort (fun a b => Nat.ble a.estimatedTokens b.estimatedTokens)
      partitions) none

/-- The top-level-directory loop of `partitionByDirectory`, returning the
partitions and the next partition number. -/
def dirLoop (config : PartitionConfig) :
    List DirectoryNode → Nat → List PartitionSpec × Nat
  | [], num => ([], num)
  | child :: rest, num =>
    if child.totalTokens < config.minTokens then
      dirLoop config rest num
    else if config.maxTokens < child.totalTokens then
      let subs := splitLargeDirectory child config num
      let res := dirLoop config rest (num + subs.length)
      (subs ++ res.1, res.2)
    else
      let res := dirLoop config rest (num + 1)
      (directoryToPartition child num :: res.1, res.2)

/-- `partitionByDirectory`: one partition per qualifying top-level directory
(small ones skipped, large ones split), plus a root-level-files partition,
then `mergeSmallPartitions`. -/
def partitionByDirectory (manifest : CodebaseManifest)
    (config : PartitionConfig) : List PartitionSpec :=
  let res := dirLoop config manifest.structureTree.children 1
  let rootFiles := manifest.structureTree.files
  let partitions :=
    res.1 ++
      (if !rootFiles.isEmpty then
        let rootTokens := rootFiles.foldl (fun sum f => sum + f.tokens) 0
        if config.minTokens ≤ rootTokens then
          [{ id := partitionId res.2
             description := "Root-level files"
             directories := ["."]
             files := rootFiles.map (·.relativePath)
             estimatedTokens := rootTokens
             relatedPartitions := []
             priority := 5 }]
        else []
      else [])
  mergeSmallPartitions partitions config

/-- The packing loop of `partitionFlat`: flush the current chunk when adding
the next file would exceed `targetTokens` (unless the chunk is empty). -/
def flatLoop (config : PartitionConfig) :
    List FileInfo → List FileInfo → Nat → Nat → List PartitionSpec
  | [], cur, curTokens, num =>
    if cur.isEmpty then [] else [filesToPartition cur curTokens num]
  | f :: rest, cur, curTokens, num =>
    if config.targetTokens < curTokens + f.tokens && !cur.isEmpty then
      filesToPartition cur curTokens num
        :: flatLoop config rest [f] f.tokens (num + 1)
    else
      flatLoop config rest (cur ++ [f]) (curTokens + f.tokens) num

/-- `partitionFlat`: sort all files by path (stable; `localeCompare` modelled
by code-point order) and pack sequential chunks. -/
def partitionFlat (manifest : CodebaseManifest) (config : PartitionConfig) :
    List PartitionSpec :=
  let allFiles :=
    stableSort (fun a b => strLexLe a.relativePath b.relativePath)
      (getAllFiles manifest.structureTree)
  flatLoop config allFiles [] 0 1

/-- The directory-prefix relation of `detectRelationships`. -/
def dirPrefixRelated (dirs otherDirs : List String) : Bool :=
  dirs.any fun dir =>
    otherDirs.any fun otherDir =>
      strStartsWith dir (otherDir ++ "/") || strStartsWith otherDir (dir ++ "/")

/-- `detectRelationships`: mark two partitions related when one's directory
is a path-prefix of the other's (the TS version mutates each builder's
`relatedPartitions` set, starting from empty). -/
def detectRelationships (builders : List PartitionBuilder) :
    List PartitionBuilder :=
  builders.map fun b =>
    { b with
      relatedPartitions :=
        (builders.filter fun o =>
          !(o.id == b.id) && dirPrefixRelated b.directories o.directories).map
          (·.id) }

/-- `/^src\/?$|^lib\/?$|^core\/?$/i.test(d)`. -/
def coreDirTest (d : String) : Bool :=
  ["src", "src/", "lib", "lib/", "core", "core/"].contains (strToLower d)

/-- `/test|spec|__test__|e2e/i.test(d)`. -/
def testDirTest (d : String) : Bool :=
  let l := strToLower d
  strContains l "test" || strContains l "spec" || strContains l "__test__"
    || strContains l "e2e"

/-- `/generated|build|dist/i.test(d)`. -/
def generatedDirTest (d : String) : Bool :=
  let l := strToLower d
  strContains l "generated" || strContains l "build" || strContains l "dist"

/-- The per-builder priority computation of `assignPriorities`: base 5,
+3 for a contained entry-point file, +2 for an entry point's directory,
+2 for `src`/`lib`/`core`, −2 for test patterns, −3 for generated patterns,
clamped to [1, 10]. -/
def computePriority (manifest : CodebaseManifest) (b : PartitionBuilder) : Nat :=
  let entryPointDirs := manifest.entryPoints.map dirname
  let files := b.files.map (·.relativePath)
  let p : Int := 5
  let p := if files.any (fun f => manifest.entryPoints.contains f) then p + 3 else p
  let p := if b.directories.any (fun d => entryPointDirs.contains d) then p + 2 else p
  let p := if b.directories.any coreDirTest then p + 2 else p
  let p := if b.directories.any testDirTest then p - 2 else p
  let p := if b.directories.any generatedDirTest then p - 3 else p
  (max 1 (min 10 p)).toNat

/-- `assignPriorities` (the TS version mutates each builder in place). -/
def assignPriorities (builders : List PartitionBuilder)
    (manifest : CodebaseManifest) : List PartitionBuilder :=
  builders.map fun b => { b with priority := computePriority manifest b }

/-- The module loop of `partitionAuto`: oversized modules are split,
right-sized ones become builders, undersized ones are merged into a sibling
builder or emitted standalone. -/
def autoLoop (config : PartitionConfig) :
    List ModuleInfo → List PartitionBuilder → Nat → List PartitionBuilder × Nat
  | [], builders, num => (builders, num)
  | module :: rest, builders, num =>
    if config.maxTokens < module.tokens then
      let subs := splitModule module config num
      autoLoop config rest (builders ++ subs) (num + subs.length)
    else if config.minTokens ≤ module.tokens then
      autoLoop config rest (builders ++ [moduleToBuilder module num]) (num + 1)
    else
      match tryMergeModule module builders config with
      | some merged => autoLoop config rest merged num
      | none =>
        autoLoop config rest (builders ++ [moduleToBuilder module num]) (num + 1)

/-- `partitionAuto`: identify modules, build partitions, attach orphan files
(as a dedicated partition when they reach `minTokens`, otherwise merged into
the smallest builder — note the in-place `sort` this uses reorders the
builder array by token count), detect relationships, assign priorities,
sort by priority descending and truncate to `maxPartitions`. -/
def partitionAuto (manifest : CodebaseManifest) (config : PartitionConfig) :
    List PartitionSpec :=
  let modules := identifyModules manifest.structureTree
  let res := autoLoop config modules [] 1
  let builders := res.1
  let partitionNum := res.2
  let orphanFiles := findOrphanFiles manifest.structureTree modules
  let builders :=
    if !orphanFiles.isEmpty then
      let orphanTokens := orphanFiles.foldl (fun sum f => sum + f.tokens) 0
      if config.minTokens ≤ orphanTokens then
        builders ++
          [{ id := partitionId partitionNum
             description := "Configuration and utility files"
             directories :=
               setOfList ("." :: orphanFiles.map (fun f => dirname f.relativePath))
             files := orphanFiles
             tokens := orphanTokens
             relatedPartitions := []
             priority := 3 }]
      else if !builders.isEmpty then
        match stableSort (fun a b => Nat.ble a.tokens b.tokens) builders with
        | [] => builders
        | smallest :: others =>
          { smallest with
            files := smallest.files ++ orphanFiles
            tokens := smallest.tokens + orphanTokens } :: others
      else builders
    else builders
  let builders := detectRelationships builders
  let builders := assignPriorities builders manifest
  ((stableSort (fun a b => Nat.ble b.priority a.priority) builders).take
    config.maxPartitions).map builderToSpec

/-- `createPartitions`: single partition for small codebases, otherwise
dispatch on the configured mode. -/
def createPartitions (manifest : CodebaseManifest) (config : PartitionConfig) :
    List PartitionSpec :=
  if manifest.totalTokens ≤ config.maxTokens then
    [createSinglePartition manifest]
  else
    match config.mode with
    | .directory => partitionByDirectory manifest config
    | .flat => partitionFlat manifest config
    | .auto => partitionAuto manifest config

/-! ## Checkpoint manager (`checkpoint.ts`)

`saveCheckpoint`/`loadCheckpoint` serialize to disk; their effect is modelled
by passing the loaded value (`Option CodebaseCheckpoint`) where the source
calls `loadCheckpoint`, and ISO timestamps (`new Date().toISOString()`) as
explicit parameters. -/

/-- `PartitionAnalysis`: the explorer result stored per partition.  The
checkpoint manager treats it as an opaque payload; only the fields needed to
build concrete values are modelled. -/
structure PartitionAnalysis where
  partitionId : String
  confidence : Nat
  coverage : Nat
deriving DecidableEq, Repr

/-- `CodebaseKnowledge`: the synthesis result.  Opaque payload for the
checkpoint manager. -/
structure CodebaseKnowledge where
  overview : String
deriving DecidableEq, Repr

/-- Checkpoint `phase` values. -/
inductive CheckpointPhase where
  | analysis
  | exploration
  | synthesis
  | ingestion
deriving DecidableEq, Repr

/-- Position of a phase in the forward order
`analysis → exploration → synthesis → ingestion`. -/
def CheckpointPhase.rank : CheckpointPhase → Nat
  | .analysis => 0
  | .exploration => 1
  | .synthesis => 2
  | .ingestion => 3

/-- The phase literal strings of the source. -/
def CheckpointPhase.toStr : CheckpointPhase → String
  | .analysis => "analysis"
  | .exploration => "exploration"
  | .synthesis => "synthesis"
  | .ingestion => "ingestion"

/-- `CodebaseCheckpoint` (`partitionResults` is an insertion-ordered
`Record<string, PartitionAnalysis>`). -/
structure CodebaseCheckpoint where
  manifestHash : String
  manifest : CodebaseManifest
  phase : CheckpointPhase
  completedPartitions : List String
  partitionResults : List (String × PartitionAnalysis)
  synthesisComplete : Bool
  knowledge : Option CodebaseKnowledge
  memoriesStored : List String
  createdAt : String
  lastUpdated : String

/-- `createCheckpoint`. -/
def createCheckpoint (manifest : CodebaseManifest) (nowIso : String) :
    CodebaseCheckpoint :=
  { manifestHash := manifest.hash
    manifest := manifest
    phase := .analysis
    completedPartitions := []
    partitionResults := []
    synthesisComplete := false
    knowledge := none
    memoriesStored := []
    createdAt := nowIso
    lastUpdated := nowIso }

/-- `isCheckpointValid`: hash must match, then partition count must match. -/
def isCheckpointValid (checkpoint : CodebaseCheckpoint)
    (manifest : CodebaseManifest) : Bool :=
  if !(checkpoint.manifestHash == manifest.hash) then false
  else if !(checkpoint.manifest.partitions.length == manifest.partitions.length)
    then false
  else true

/-- `updateCheckpointPartition`: record a completed partition (sets the phase
to `exploration` unconditionally). -/
def updateCheckpointPartition (checkpoint : CodebaseCheckpoint)
    (partitionId : String) (analysis : PartitionAnalysis) (nowIso : String) :
    CodebaseCheckpoint :=
  { checkpoint with
    phase := .exploration
    completedPartitions := checkpoint.completedPartitions ++ [partitionId]
    partitionResults := recordSet checkpoint.partitionResults partitionId analysis
    lastUpdated := nowIso }

/-- `updateCheckpointSynthesis`: record the synthesis result and advance the
phase to `ingestion`. -/
def updateCheckpointSynthesis (checkpoint : CodebaseCheckpoint)
    (knowledge : CodebaseKnowledge) (nowIso : String) : CodebaseCheckpoint :=
  { checkpoint with
    phase := .ingestion
    synthesisComplete := true
    knowledge := some knowledge
    lastUpdated := nowIso }

/-- `updateCheckpointMemories`: append the stored memory ids. -/
def updateCheckpointMemories (checkpoint : CodebaseCheckpoint)
    (memoryIds : List String) (nowIso : String) : CodebaseCheckpoint :=
  { checkpoint with
    memoriesStored := checkpoint.memoriesStored ++ memoryIds
    lastUpdated := nowIso }

/-- `getRemainingPartitions`: manifest partition ids minus the completed set. -/
def getRemainingPartitions (checkpoint : CodebaseCheckpoint) : List String :=
  (checkpoint.manifest.partitions.filter
    (fun p => !checkpoint.completedPartitions.contains p.id)).map (·.id)

/-- `getCompletionPercent`: `Math.round(completed / total * 100)`, 100 for an
empty manifest. -/
def getCompletionPercent (checkpoint : CodebaseCheckpoint) : Nat :=
  let total := checkpoint.manifest.partitions.length
  if total == 0 then 100
  else (200 * checkpoint.completedPartitions.length + total) / (2 * total)

/-- The record returned by `shouldResume`. -/
structure ResumeDecision where
  resume : Bool
  checkpoint : Option CodebaseCheckpoint
  reason : String

/-- `shouldResume` with the `loadCheckpoint(projectDir)` filesystem read
replaced by its result `loaded`. -/
def shouldResume (loaded : Option CodebaseCheckpoint)
    (manifest : CodebaseManifest) : ResumeDecision :=
  match loaded with
  | none =>
    { resume := false, checkpoint := none, reason := "No checkpoint found" }
  | some checkpoint =>
    if !isCheckpointValid checkpoint manifest then
      { resume := false, checkpoint := none,
        reason := "Checkpoint is stale (codebase has changed)" }
    else
      let remaining := getRemainingPartitions checkpoint
      if remaining.isEmpty && checkpoint.synthesisComplete then
        { resume := false, checkpoint := none,
          reason := "Checkpoint is complete, nothing to resume" }
      else
        { resume := true, checkpoint := some checkpoint,
          reason := "Can resume from " ++ checkpoint.phase.toStr ++ " phase ("
            ++ toString (getCompletionPercent checkpoint) ++ "% complete)" }

/-- `getResumedAnalyses`: `Object.values(checkpoint.partitionResults)`. -/
def getResumedAnalyses (checkpoint : CodebaseCheckpoint) :
    List PartitionAnalysis :=
  checkpoint.partitionResults.map (·.2)

/-! ## Concrete fixtures used by the theorems below -/

/-- A minimal manifest with the given hash, partitions and entry points
(empty structure tree; used where only these fields are read). -/
def mkManifest (hash : String) (partitions : List PartitionSpec)
    (entryPoints : List String) : CodebaseManifest :=
  { projectDir := "/p", projectName := "p", totalFiles := 0, totalTokens := 0,
    structureTree := .mk "." [] [] 0 "Unknown" 0, entryPoints := entryPoints,
    partitions := partitions, skippedFiles := [], hash := hash,
    createdAt := "t" }

/-- Fixture: a 98 000-token file in top-level directory `a`. -/
def fileA1 : FileInfo :=
  ⟨"/p/a/fa.ts", "a/fa.ts", 392000, 98000, "TypeScript", 9800⟩

/-- Fixture: a 5 000-token file in top-level directory `b`. -/
def fileB1 : FileInfo :=
  ⟨"/p/b/fb.ts", "b/fb.ts", 20000, 5000, "TypeScript", 500⟩

/-- Fixture: a tree with a 98 000-token directory and a 5 000-token
directory (the latter below the default `minTokens` of 10 000). -/
def rootC1 : DirectoryNode :=
  .mk "." []
    [.mk "a" [fileA1] [] 98000 "TypeScript" 1,
     .mk "b" [fileB1] [] 5000 "TypeScript" 1]
    103000 "TypeScript" 2

/-- Fixture: the manifest for `rootC1` (103 000 total tokens, nothing
skipped). -/
def mC1 : CodebaseManifest :=
  { projectDir := "/p", projectName := "p", totalFiles := 2,
    totalTokens := 103000, structureTree := rootC1, entryPoints := [],
    partitions := [], skippedFiles := [], hash := "h", createdAt := "t" }

/-- Fixture: the default configuration in `directory` mode. -/
def cfgDirC1 : PartitionConfig :=
  { DEFAULT_PARTITION_CONFIG with mode := .directory }

/-- Fixture: three 100-token root-level files. -/
def rootC2 : DirectoryNode :=
  .mk "."
    [⟨"/p/a.ts", "a.ts", 400, 100, "TypeScript", 10⟩,
     ⟨"/p/b.ts", "b.ts", 400, 100, "TypeScript", 10⟩,
     ⟨"/p/c.ts", "c.ts", 400, 100, "TypeScript", 10⟩]
    [] 300 "TypeScript" 3

/-- Fixture: the manifest for `rootC2`. -/
def mC2 : CodebaseManifest :=
  { projectDir := "/p", projectName := "p", totalFiles := 3,
    totalTokens := 300, structureTree := rootC2, entryPoints := [],
    partitions := [], skippedFiles := [], hash := "h", createdAt := "t" }

/-- Fixture: flat mode with a 50-token target/ceiling and at most 2
partitions. -/
def cfgC2 : PartitionConfig :=
  { mode := .flat, targetTokens := 50, minTokens := 0, maxTokens := 50,
    maxPartitions := 2 }

/-- Fixture: the first partition `partitionFlat` emits for `mC2`/`cfgC2`
(used to witness the flat-mode token bound). -/
def pC5w : PartitionSpec :=
  (partitionFlat mC2 cfgC2).headD ⟨"", "", [], [], 0, [], 0⟩

/-- Fixture: four 75 000-token files in `src/a`, 300 000 tokens total. -/
def rootC5 : DirectoryNode :=
  .mk "." []
    [.mk "src" []
      [.mk "src/a"
        [⟨"/p/src/a/f1.ts", "src/a/f1.ts", 300000, 75000, "TypeScript", 7500⟩,
         ⟨"/p/src/a/f2.ts", "src/a/f2.ts", 300000, 75000, "TypeScript", 7500⟩,
         ⟨"/p/src/a/f3.ts", "src/a/f3.ts", 300000, 75000, "TypeScript", 7500⟩,
         ⟨"/p/src/a/f4.ts", "src/a/f4.ts", 300000, 75000, "TypeScript", 7500⟩]
        [] 300000 "TypeScript" 4]
      300000 "TypeScript" 4]
    300000 "TypeScript" 4

/-- Fixture: the manifest for `rootC5`. -/
def mC5 : CodebaseManifest :=
  { projectDir := "/p", projectName := "p", totalFiles := 4,
    totalTokens := 300000, structureTree := rootC5, entryPoints := [],
    partitions := [], skippedFiles := [], hash := "h", createdAt := "t" }

/-- Fixture: a manifest with fingerprint `"H1"`. -/
def mC4 : CodebaseManifest := mkManifest "H1" [] []

/-- Fixture: the same project rescanned with a different fingerprint `"H2"`. -/
def mC4b : CodebaseManifest := mkManifest "H2" [] []

/-- Fixture: a checkpoint created from `mC4` (stored fingerprint `"H1"`). -/
def cpC4 : CodebaseCheckpoint := createCheckpoint mC4 "t0"

/-- Fixture: a checkpoint that has reached the `ingestion` phase. -/
def cpC7 : CodebaseCheckpoint :=
  updateCheckpointSynthesis (createCheckpoint mC4 "t0") ⟨"overview"⟩ "t1"

/-- Fixture: a manifest whose only entry point is the root-level `main.ts`. -/
def mC9 : CodebaseManifest := mkManifest "h" [] ["main.ts"]

/-- Fixture: a builder rooted at `src/api` containing the root-level entry
point `main.ts`. -/
def bC9 : PartitionBuilder :=
  { id := "partition-01", description := "api", directories := ["src/api"],
    files := [⟨"/p/main.ts", "main.ts", 400, 100, "TypeScript", 10⟩],
    tokens := 100, relatedPartitions := [], priority := 5 }

/-- Fixture: a manifest whose only entry point is `src/api/index.ts`. -/
def mC9w : CodebaseManifest := mkManifest "h" [] ["src/api/index.ts"]

/-- Fixture: a builder rooted at `src/api` containing the entry point
`src/api/index.ts`. -/
def bC9w : PartitionBuilder :=
  { id := "partition-01", description := "api", directories := ["src/api"],
    files := [⟨"/p/src/api/index.ts", "src/api/index.ts", 400, 100,
      "TypeScript", 10⟩],
    tokens := 100, relatedPartitions := [], priority := 5 }

/-- Fixture: a builder rooted at the test directory `src/api/__tests__`. -/
def bC9test : PartitionBuilder :=
  { id := "partition-02", description := "tests",
    directories := ["src/api/__tests__"], files := [], tokens := 100,
    relatedPartitions := [], priority := 5 }

/-- Fixture: an otherwise-identical sibling builder rooted at
`src/api/handlers` (matching no test/spec pattern). -/
def bC9sib : PartitionBuilder :=
  { id := "partition-03", description := "handlers",
    directories := ["src/api/handlers"], files := [], tokens := 100,
    relatedPartitions := [], priority := 5 }

end Memorai


namespace Memorai

/-! ## Helper lemmas -/

/-- Membership through `insertLe`. -/
theorem mem_insertLe (le : α → α → Bool) (x a : α) :
    ∀ (l : List α), a ∈ insertLe le x l ↔ a = x ∨ a ∈ l := by
  intro l
  induction l with
  | nil => simp [insertLe]
  | cons y ys ih =>
    by_cases h : le x y
    · simp [insertLe, h]
    · simp [insertLe, h, ih]
      tauto

/-- `stableSort` is a permutation as far as membership is concerned. -/
theorem mem_stableSort (le : α → α → Bool) (a : α) :
    ∀ (l : List α), a ∈ stableSort le l ↔ a ∈ l := by
  intro l
  induction l with
  | nil => simp [stableSort]
  | cons x xs ih => simp [stableSort, mem_insertLe, ih]

/-- `isCheckpointValid` as a single boolean conjunction. -/
theorem isCheckpointValid_eq (cp : CodebaseCheckpoint) (m : CodebaseManifest) :
    isCheckpointValid cp m =
      ((cp.manifestHash == m.hash)
        && (cp.manifest.partitions.length == m.partitions.length)) := by
  unfold isCheckpointValid
  by_cases h1 : cp.manifestHash == m.hash
    <;> by_cases h2 : cp.manifest.partitions.length == m.partitions.length
    <;> simp [h1, h2]

/-- A list is a `isPrefixOf` of itself followed by anything. -/
theorem isPrefixOf_append_self (l t : List Char) :
    l.isPrefixOf (l ++ t) = true := by
  induction l with
  | nil => simp [List.isPrefixOf]
  | cons x xs ih => simp [List.isPrefixOf, ih]

/-- If the continuation matches `p`, then `.*` `/` continuation matches any
`d ++ '/' :: p`. -/
theorem globstar_slash_match (T : List GlobAtom) (p : List Char)
    (h : globMatch T p = true) :
    ∀ (d : List Char), globMatch (.globstar :: .lit '/' :: T) (d ++ '/' :: p) = true := by
  intro d
  unfold globMatch
  refine List.any_eq_true.mpr ⟨'/' :: p, ?_, ?_⟩
  · exact (List.mem_tails _ _).mpr (List.suffix_append d _)
  · simp [globMatch, h]

/-- The auto-mode result is a truncation to `maxPartitions`. -/
theorem length_partitionAuto_le (m : CodebaseManifest) (cfg : PartitionConfig) :
    (partitionAuto m cfg).length ≤ cfg.maxPartitions := by
  unfold partitionAuto
  simp only [List.length_map, List.length_take]
  exact min_le_left _ _

/-- Every partition the flat packing loop emits stays within
`max targetTokens F` when every incoming file is ≤ `F` tokens. -/
theorem flatLoop_estimatedTokens_le (config : PartitionConfig) (F : Nat) :
    ∀ (files cur : List FileInfo) (curTokens num : Nat),
      (∀ f ∈ files, f.tokens ≤ F) →
      (cur = [] → curTokens = 0) →
      curTokens ≤ max config.targetTokens F →
      ∀ p ∈ flatLoop config files cur curTokens num,
        p.estimatedTokens ≤ max config.targetTokens F := by
  intro files
  induction files with
  | nil =>
    intro cur curTokens num _ _ hb p hp
    unfold flatLoop at hp
    by_cases hc : cur.isEmpty <;> simp [hc] at hp
    subst hp
    exact hb
  | cons f rest ih =>
    intro cur curTokens num hF h0 hb p hp
    have hfF : f.tokens ≤ F := hF f (List.mem_cons_self f rest)
    have hrest : ∀ g ∈ rest, g.tokens ≤ F := fun g hg => hF g (List.mem_cons_of_mem f hg)
    unfold flatLoop at hp
    split at hp
    · rcases List.mem_cons.mp hp with hpe | hpr
      · subst hpe
        exact hb
      · refine ih [f] f.tokens (num + 1) hrest (by intro h; cases h) ?_ p hpr
        exact le_max_of_le_right hfF
    · refine ih (cur ++ [f]) (curTokens + f.tokens) num hrest (by simp) ?_ p hp
      rename_i hcond
      by_cases hemp : cur.isEmpty
      · have hcur : cur = [] := List.isEmpty_iff.mp hemp
        have h00 : curTokens = 0 := h0 hcur
        subst h00
        simpa using le_max_of_le_right hfF
      · have hle : ¬(config.targetTokens < curTokens + f.tokens) := by
          intro hlt
          exact hcond (by simp [hlt, hemp])
        exact le_max_of_le_left (by omega)

end Memorai

namespace Memorai

/-! ## Claim theorems -/

/-- Claim C1 (code bug): coverage fails.  In `directory` mode, a top-level
directory below `minTokens` is skipped with the comment "will be merged
later" but never is: here the non-skipped file `b/fb.ts` (5 000 tokens,
`skippedFiles = []`) appears in no emitted partition, so the union of the
partitions' file lists is strictly smaller than the set of non-skipped
files. -/
theorem C1_directory_mode_drops_nonskipped_file :
    mC1.skippedFiles = []
    ∧ (getAllFiles mC1.structureTree).map FileInfo.relativePath
        = ["a/fa.ts", "b/fb.ts"]
    ∧ ((createPartitions mC1 cfgDirC1).map PartitionSpec.files).flatten
        = ["a/fa.ts"] := by decide

/-- Claim C2, counterexample: in `flat` mode `createPartitions` never
consults `maxPartitions` — three 100-token files with `targetTokens = 50`
and `maxPartitions = 2` yield three partitions. -/
theorem C2_flat_mode_exceeds_maxPartitions :
    (createPartitions mC2 cfgC2).length = 3
    ∧ ¬((createPartitions mC2 cfgC2).length ≤ cfgC2.maxPartitions) := by decide

/-- Claim C2, amended: the `maxPartitions` bound holds in `auto` mode (the
only mode that truncates), for any configuration allowing at least one
partition; `directory` and `flat` modes do not enforce it. -/
theorem C2_auto_mode_respects_maxPartitions :
    ∀ (manifest : CodebaseManifest) (config : PartitionConfig),
      config.mode = .auto → 1 ≤ config.maxPartitions →
      (createPartitions manifest config).length ≤ config.maxPartitions := by
  intro m cfg hmode hmp
  by_cases h : m.totalTokens ≤ cfg.maxTokens
  · simpa [createPartitions, h] using hmp
  · simpa [createPartitions, h, hmode] using length_partitionAuto_le m cfg

/-- Witness for the amended C2 theorem at a concrete manifest and the
default (auto) configuration. -/
theorem C2_auto_mode_respects_maxPartitions_witness :
    (createPartitions mC2 DEFAULT_PARTITION_CONFIG).length
      ≤ DEFAULT_PARTITION_CONFIG.maxPartitions :=
  C2_auto_mode_respects_maxPartitions mC2 DEFAULT_PARTITION_CONFIG rfl
    (by decide)

/-- Claim C3: the manifest fingerprint is not a function of the scanned
content.  Two `analyzeCodebase` invocations over the identical (empty)
tree at wall-clock times 0 and 1 hash different data strings, so for any
injective digest the manifests carry different hash values. -/
theorem C3_manifest_hash_depends_on_time :
    ∀ (hashHex : String → String), Function.Injective hashHex →
      (analyzeCodebase hashHex (.dir []) "/proj" "proj"
        DEFAULT_INCLUDE_PATTERNS DEFAULT_EXCLUDE_PATTERNS 0 "t").hash
      ≠ (analyzeCodebase hashHex (.dir []) "/proj" "proj"
        DEFAULT_INCLUDE_PATTERNS DEFAULT_EXCLUDE_PATTERNS 1 "t").hash := by
  intro hashHex hinj heq
  have heq' : hashHex (manifestHashData "/proj" 0 0 0)
      = hashHex (manifestHashData "/proj" 0 0 1) := heq
  exact absurd (hinj heq') (by decide)

/-- Witness for C3 with the injective digest `id`. -/
theorem C3_manifest_hash_depends_on_time_witness :
    (analyzeCodebase id (.dir []) "/proj" "proj"
      DEFAULT_INCLUDE_PATTERNS DEFAULT_EXCLUDE_PATTERNS 0 "t").hash
    ≠ (analyzeCodebase id (.dir []) "/proj" "proj"
      DEFAULT_INCLUDE_PATTERNS DEFAULT_EXCLUDE_PATTERNS 1 "t").hash :=
  C3_manifest_hash_depends_on_time id Function.injective_id

/-- Claim C4: `isCheckpointValid` holds exactly when the stored fingerprint
equals the manifest hash and the stored partition count equals the
manifest's; and whenever it fails, `shouldResume` (with the loaded
checkpoint) reports `resume := false` with the staleness reason and
returns no checkpoint, so no stored partition result is reused. -/
theorem C4_checkpoint_validity_and_staleness (cp : CodebaseCheckpoint)
    (m : CodebaseManifest) :
    (isCheckpointValid cp m = true ↔
      (cp.manifestHash = m.hash
        ∧ cp.manifest.partitions.length = m.partitions.length))
    ∧ (isCheckpointValid cp m = false →
        shouldResume (some cp) m =
          { resume := false, checkpoint := none,
            reason := "Checkpoint is stale (codebase has changed)" }) := by
  constructor
  · rw [isCheckpointValid_eq]
    simp
  · intro hinv
    simp [shouldResume, hinv]

/-- Witness for C4: a checkpoint created for fingerprint `"H1"` is stale
against a manifest with fingerprint `"H2"`. -/
theorem C4_checkpoint_validity_and_staleness_witness :
    shouldResume (some cpC4) mC4b =
      { resume := false, checkpoint := none,
        reason := "Checkpoint is stale (codebase has changed)" } :=
  (C4_checkpoint_validity_and_staleness cpC4 mC4b).2 (by decide)

/-- Claim C5, counterexample: in `auto` mode `splitModule` packs a whole
subdirectory group as one partition — four 75 000-token files (each ≤
`maxTokens = 100 000`) in `src/a` yield a single 300 000-token partition,
exceeding `maxTokens` by far more than any one file's count. -/
theorem C5_auto_mode_overshoot :
    (getAllFiles mC5.structureTree).map FileInfo.tokens
      = [75000, 75000, 75000, 75000]
    ∧ (createPartitions mC5 DEFAULT_PARTITION_CONFIG).map
        PartitionSpec.estimatedTokens = [300000]
    ∧ ¬((300000 : Nat) ≤ DEFAULT_PARTITION_CONFIG.maxTokens + 75000) := by
  decide

/-- Claim C5, amended: the overshoot bound holds in `flat` mode — every
partition `partitionFlat` emits has at most `max targetTokens F` tokens
when every file is ≤ `F` tokens (so with `targetTokens ≤ maxTokens` and
files ≤ `maxTokens` a flat partition never exceeds `maxTokens` at all). -/
theorem C5_flat_token_bound :
    ∀ (manifest : CodebaseManifest) (config : PartitionConfig) (F : Nat),
      (∀ f ∈ getAllFiles manifest.structureTree, f.tokens ≤ F) →
      ∀ p ∈ partitionFlat manifest config,
        p.estimatedTokens ≤ max config.targetTokens F := by
  intro m cfg F hF p hp
  unfold partitionFlat at hp
  refine flatLoop_estimatedTokens_le cfg F _ [] 0 1 ?_ (fun _ => rfl)
    (Nat.zero_le _) p hp
  intro f hf
  exact hF f ((mem_stableSort _ _ _).mp hf)

/-- Witness for the flat-mode bound on a concrete partition of `mC2`. -/
theorem C5_flat_token_bound_witness :
    pC5w ∈ partitionFlat mC2 cfgC2
    ∧ pC5w.estimatedTokens ≤ max cfgC2.targetTokens 100 :=
  ⟨by decide, C5_flat_token_bound mC2 cfgC2 100 (by decide) pC5w (by decide)⟩

end Memorai

namespace Memorai

/-- For a pattern with a leading `**/`, the compiled regex test is the bare
continuation match or the `.*` `/` continuation match. -/
theorem patternToRegexTest_leading (q path : String) :
    patternToRegexTest ("**/" ++ q) path
      = (globMatch (globTokens q.data) path.data
         || globMatch (.globstar :: .lit '/' :: globTokens q.data) path.data) := by
  have hlit : "**/".data = ['*', '*', '/'] := by decide
  have hdata : ("**/" ++ q).data = '*' :: '*' :: '/' :: q.data := by
    rw [String.data_append, hlit]
    rfl
  have hsw : strStartsWith ("**/" ++ q) "**/" = true := by
    unfold strStartsWith
    rw [hdata]
    exact isPrefixOf_append_self ['*', '*', '/'] q.data
  have htok : globTokens ('*' :: '*' :: '/' :: q.data)
      = .globstar :: .lit '/' :: globTokens q.data := by
    simp [globTokens]
  simp [patternToRegexTest, hsw, hdata, htok]

/-- Claim C6: under `**/node_modules/**` both `node_modules/x.ts` and
`sub/node_modules/y.ts` are excluded while `sub/node_modules_extra/y.ts` is
not; and in general, for any pattern `**/q`, a path matching `q` matches the
compiled anchored regex both bare and under any directory prefix. -/
theorem C6_globstar_optional_dir_match :
    isExcluded "node_modules/x.ts" ["**/node_modules/**"] = true
    ∧ isExcluded "sub/node_modules/y.ts" ["**/node_modules/**"] = true
    ∧ isExcluded "sub/node_modules_extra/y.ts" ["**/node_modules/**"] = false
    ∧ ∀ (q p d : String),
        globMatch (globTokens q.data) p.data = true →
        patternToRegexTest ("**/" ++ q) p = true
        ∧ patternToRegexTest ("**/" ++ q) (d ++ "/" ++ p) = true := by
  refine ⟨by decide, by decide, by decide, ?_⟩
  intro q p d hq
  constructor
  · rw [patternToRegexTest_leading, hq]
    simp
  · rw [patternToRegexTest_leading]
    have hpd : (d ++ "/" ++ p).data = d.data ++ '/' :: p.data := by
      simp [String.data_append]
    rw [hpd, globstar_slash_match (globTokens q.data) p.data hq d.data]
    simp

/-- Witness for C6: `node_modules/z.ts` matches `node_modules/**`, hence
`sub/node_modules/z.ts` matches `**/node_modules/**`. -/
theorem C6_globstar_optional_dir_match_witness :
    patternToRegexTest ("**/" ++ "node_modules/**")
      ("sub" ++ "/" ++ "node_modules/z.ts") = true :=
  (C6_globstar_optional_dir_match.2.2.2 "node_modules/**" "node_modules/z.ts"
    "sub" (by decide)).2

/-- Claim C7, counterexample: `updateCheckpointPartition` sets the phase to
`exploration` unconditionally, so applying it to a checkpoint already in the
`ingestion` phase moves the phase backwards. -/
theorem C7_partition_update_regresses_phase :
    cpC7.phase = CheckpointPhase.ingestion
    ∧ (updateCheckpointPartition cpC7 "partition-01"
        ⟨"partition-01", 5, 5⟩ "t2").phase = CheckpointPhase.exploration
    ∧ CheckpointPhase.exploration.rank < CheckpointPhase.ingestion.rank :=
  ⟨rfl, rfl, by decide⟩

/-- Claim C7, amended: `updateCheckpointSynthesis` and
`updateCheckpointMemories` never move the phase backwards, and
`updateCheckpointPartition` does not either when the input checkpoint is
still in the `analysis` or `exploration` phase (the pipeline's intended
states for partition updates). -/
theorem C7_phase_forward_amended (cp : CodebaseCheckpoint) (pid : String)
    (a : PartitionAnalysis) (kn : CodebaseKnowledge) (ids : List String)
    (t : String) :
    cp.phase.rank ≤ (updateCheckpointSynthesis cp kn t).phase.rank
    ∧ (updateCheckpointMemories cp ids t).phase = cp.phase
    ∧ (cp.phase = .analysis ∨ cp.phase = .exploration →
        cp.phase.rank ≤ (updateCheckpointPartition cp pid a t).phase.rank) := by
  refine ⟨?_, rfl, ?_⟩
  · have hs : (updateCheckpointSynthesis cp kn t).phase =
      CheckpointPhase.ingestion := rfl
    rw [hs]
    cases cp.phase
    all_goals decide
  · intro h
    have hp : (updateCheckpointPartition cp pid a t).phase =
      CheckpointPhase.exploration := rfl
    rw [hp]
    rcases h with h | h
    all_goals rw [h]
    all_goals decide

/-- Witness for the amended C7 theorem on a freshly created checkpoint. -/
theorem C7_phase_forward_amended_witness :
    (createCheckpoint mC4 "t0").phase.rank
      ≤ (updateCheckpointPartition (createCheckpoint mC4 "t0") "p"
          ⟨"p", 5, 5⟩ "t1").phase.rank :=
  (C7_phase_forward_amended (createCheckpoint mC4 "t0") "p" ⟨"p", 5, 5⟩
    ⟨"k"⟩ [] "t1").2.2 (Or.inl rfl)

/-- Claim C8 (code bug): an unreadable project root is swallowed by
`scanDirectory`'s catch, and `analyzeCodebase` — whose return type has no
failure channel — produces a silently empty manifest (zero files, zero
tokens, empty tree, nothing even in the skip list) instead of a top-level
failure. -/
theorem C8_unreadable_root_silent_empty_manifest :
    ∀ (hashHex : String → String),
      (analyzeCodebase hashHex .unreadableDir "/proj" "proj"
        DEFAULT_INCLUDE_PATTERNS DEFAULT_EXCLUDE_PATTERNS 0 "t0").totalFiles = 0
      ∧ (analyzeCodebase hashHex .unreadableDir "/proj" "proj"
          DEFAULT_INCLUDE_PATTERNS DEFAULT_EXCLUDE_PATTERNS 0 "t0").totalTokens = 0
      ∧ (analyzeCodebase hashHex .unreadableDir "/proj" "proj"
          DEFAULT_INCLUDE_PATTERNS DEFAULT_EXCLUDE_PATTERNS 0 "t0").skippedFiles = []
      ∧ (analyzeCodebase hashHex .unreadableDir "/proj" "proj"
          DEFAULT_INCLUDE_PATTERNS DEFAULT_EXCLUDE_PATTERNS 0 "t0").structureTree.files = []
      ∧ (analyzeCodebase hashHex .unreadableDir "/proj" "proj"
          DEFAULT_INCLUDE_PATTERNS DEFAULT_EXCLUDE_PATTERNS 0 "t0").structureTree.children = [] :=
  fun _ => ⟨rfl, rfl, rfl, rfl, rfl⟩

end Memorai

namespace Memorai

/-- Claim C9, counterexample: the claimed decomposition
base(5)+entryFile(3)+srcPattern(2) is wrong — `src/api` does not match the
anchored `/^src\/?$|^lib\/?$|^core\/?$/i` pattern, so a partition rooted at
`src/api` containing the root-level entry point `main.ts` scores 8, not
10. -/
theorem C9_priority_not_ten_for_src_api :
    bC9.directories = ["src/api"]
    ∧ bC9.files.map FileInfo.relativePath = ["main.ts"]
    ∧ mC9.entryPoints = ["main.ts"]
    ∧ coreDirTest "src/api" = false
    ∧ computePriority mC9 bC9 = 8
    ∧ computePriority mC9 bC9 ≠ 10 := by decide

/-- Claim C9, amended: a partition whose only directory is `src/api` and
which contains an entry-point file *located in* `src/api` scores
5+3 (entry file) + 2 (entry-point directory, not the src-pattern) = 10;
and a partition rooted at `src/api/__tests__` gets a lower priority than
an otherwise-identical sibling at `src/api/handlers`. -/
theorem C9_priority_composition_amended :
    (∀ (m : CodebaseManifest) (b : PartitionBuilder),
        b.directories = ["src/api"] →
        (∃ f, f ∈ b.files ∧ f.relativePath ∈ m.entryPoints) →
        (∃ e, e ∈ m.entryPoints ∧ dirname e = "src/api") →
        computePriority m b = 10)
    ∧ computePriority mC4 bC9test < computePriority mC4 bC9sib := by
  constructor
  · intro m b hdirs hf he
    obtain ⟨f, hfmem, hfe⟩ := hf
    obtain ⟨e, hemem, hed⟩ := he
    have h1 : ((b.files.map (fun x => x.relativePath)).any
        fun g => m.entryPoints.contains g) = true := by
      simp only [List.any_eq_true, List.mem_map]
      exact ⟨f.relativePath, ⟨f, hfmem, rfl⟩, by simpa using hfe⟩
    have h2 : ((["src/api"] : List String).any
        fun d => (m.entryPoints.map dirname).contains d) = true := by
      simp only [List.any_eq_true]
      refine ⟨"src/api", by simp, ?_⟩
      simpa using List.mem_map.mpr ⟨e, hemem, hed⟩
    simp only [computePriority, hdirs, h1, h2]
    decide
  · decide

/-- Witness for the amended C9 theorem: the entry point `src/api/index.ts`
inside the `src/api` partition yields priority 10. -/
theorem C9_priority_composition_amended_witness :
    computePriority mC9w bC9w = 10 :=
  C9_priority_composition_amended.1 mC9w bC9w (by decide)
    ⟨⟨"/p/src/api/index.ts", "src/api/index.ts", 400, 100, "TypeScript", 10⟩,
      by decide, by decide⟩
    ⟨"src/api/index.ts", by decide, by decide⟩

/-- Claim C10: the three checkpoint updates are pure record rebuilds — each
changes exactly its documented fields and preserves every other field
(`manifestHash`, `manifest`, `createdAt`, …) of the input checkpoint, which
itself is never mutated (the embedding is functional, as is the TS object
spread). -/
theorem C10_checkpoint_update_frame (cp : CodebaseCheckpoint) (pid : String)
    (a : PartitionAnalysis) (kn : CodebaseKnowledge) (ids : List String)
    (t : String) :
    (updateCheckpointPartition cp pid a t).manifestHash = cp.manifestHash
    ∧ (updateCheckpointPartition cp pid a t).manifest = cp.manifest
    ∧ (updateCheckpointPartition cp pid a t).synthesisComplete
        = cp.synthesisComplete
    ∧ (updateCheckpointPartition cp pid a t).knowledge = cp.knowledge
    ∧ (updateCheckpointPartition cp pid a t).memoriesStored = cp.memoriesStored
    ∧ (updateCheckpointPartition cp pid a t).createdAt = cp.createdAt
    ∧ (updateCheckpointPartition cp pid a t).phase = CheckpointPhase.exploration
    ∧ (updateCheckpointPartition cp pid a t).completedPartitions
        = cp.completedPartitions ++ [pid]
    ∧ (updateCheckpointPartition cp pid a t).partitionResults
        = recordSet cp.partitionResults pid a
    ∧ (updateCheckpointPartition cp pid a t).lastUpdated = t
    ∧ (updateCheckpointSynthesis cp kn t).manifestHash = cp.manifestHash
    ∧ (updateCheckpointSynthesis cp kn t).manifest = cp.manifest
    ∧ (updateCheckpointSynthesis cp kn t).completedPartitions
        = cp.completedPartitions
    ∧ (updateCheckpointSynthesis cp kn t).partitionResults = cp.partitionResults
    ∧ (updateCheckpointSynthesis cp kn t).memoriesStored = cp.memoriesStored
    ∧ (updateCheckpointSynthesis cp kn t).createdAt = cp.createdAt
    ∧ (updateCheckpointSynthesis cp kn t).phase = CheckpointPhase.ingestion
    ∧ (updateCheckpointSynthesis cp kn t).synthesisComplete = true
    ∧ (updateCheckpointSynthesis cp kn t).knowledge = some kn
    ∧ (updateCheckpointSynthesis cp kn t).lastUpdated = t
    ∧ (updateCheckpointMemories cp ids t).manifestHash = cp.manifestHash
    ∧ (updateCheckpointMemories cp ids t).manifest = cp.manifest
    ∧ (updateCheckpointMemories cp ids t).phase = cp.phase
    ∧ (updateCheckpointMemories cp ids t).completedPartitions
        = cp.completedPartitions
    ∧ (updateCheckpointMemories cp ids t).partitionResults = cp.partitionResults
    ∧ (updateCheckpointMemories cp ids t).synthesisComplete
        = cp.synthesisComplete
    ∧ (updateCheckpointMemories cp ids t).knowledge = cp.knowledge
    ∧ (updateCheckpointMemories cp ids t).createdAt = cp.createdAt
    ∧ (updateCheckpointMemories cp ids t).memoriesStored
        = cp.memoriesStored ++ ids
    ∧ (updateCheckpointMemories cp ids t).lastUpdated = t :=
  ⟨rfl, rfl, rfl, rfl, rfl, rfl, rfl, rfl, rfl, rfl, rfl, rfl, rfl, rfl, rfl,
   rfl, rfl, rfl, rfl, rfl, rfl, rfl, rfl, rfl, rfl, rfl, rfl, rfl, rfl, rfl⟩

end Memorai
